import Mathlib

/-!
Shallow embedding of the noise-rs core (base Perlin kernel, the
ridged-multifractal fractal combinator, and the Abs modifier), with the
generic numeric type `T: Float` instantiated by the exact rationals `ℚ`.
Machine floating point rounding of the generic type `T` is outside the
embedding: every arithmetic operation of the source on `T` is modelled by
the corresponding exact operation on `ℚ`. The one explicit conversion to a
concrete narrower type, the `math::cast::<_, f32>` applied to the weight in
the RidgedMulti clamp, is precision loss by design and is modelled by
`castF32`, rounding to the IEEE-754 binary32 grid.

The crate modules `math`, `PermutationTable` and `gradient` are used by the
provided sources but are not themselves part of them; the simple vector
helpers (`dot2`, `sub2`, ...) are modelled by their evident componentwise
meaning, and the lookup-table, hashing and gradient-set pieces are modelled
from the spec (sections 3 and 4.1), as marked on each definition.
-/

/-- Points with 2 rational coordinates, the embedding of `Point2<T>`. -/
abbrev Point2 : Type := ℚ × ℚ

/-- Points with 3 rational coordinates, the embedding of `Point3<T>`. -/
abbrev Point3 : Type := ℚ × ℚ × ℚ

/-- Points with 4 rational coordinates, the embedding of `Point4<T>`. -/
abbrev Point4 : Type := ℚ × ℚ × ℚ × ℚ

/-- Componentwise map over a 2-point, the embedding of `math::map2`. -/
def map2 {α β : Type} (p : α × α) (f : α → β) : β × β := (f p.1, f p.2)

/-- Componentwise map over a 3-point, the embedding of `math::map3`. -/
def map3 {α β : Type} (p : α × α × α) (f : α → β) : β × β × β :=
  (f p.1, f p.2.1, f p.2.2)

/-- Componentwise map over a 4-point, the embedding of `math::map4`. -/
def map4 {α β : Type} (p : α × α × α × α) (f : α → β) : β × β × β × β :=
  (f p.1, f p.2.1, f p.2.2.1, f p.2.2.2)

/-- Componentwise subtraction, the embedding of `math::sub2`. -/
def sub2 {α : Type} [Sub α] (a b : α × α) : α × α := (a.1 - b.1, a.2 - b.2)

/-- Componentwise subtraction, the embedding of `math::sub3`. -/
def sub3 {α : Type} [Sub α] (a b : α × α × α) : α × α × α :=
  (a.1 - b.1, a.2.1 - b.2.1, a.2.2 - b.2.2)

/-- Componentwise subtraction, the embedding of `math::sub4`. -/
def sub4 {α : Type} [Sub α] (a b : α × α × α × α) : α × α × α × α :=
  (a.1 - b.1, a.2.1 - b.2.1, a.2.2.1 - b.2.2.1, a.2.2.2 - b.2.2.2)

/-- Componentwise addition, the embedding of `math::add2`. -/
def add2 {α : Type} [Add α] (a b : α × α) : α × α := (a.1 + b.1, a.2 + b.2)

/-- Componentwise addition, the embedding of `math::add3`. -/
def add3 {α : Type} [Add α] (a b : α × α × α) : α × α × α :=
  (a.1 + b.1, a.2.1 + b.2.1, a.2.2 + b.2.2)

/-- Componentwise addition, the embedding of `math::add4`. -/
def add4 {α : Type} [Add α] (a b : α × α × α × α) : α × α × α × α :=
  (a.1 + b.1, a.2.1 + b.2.1, a.2.2.1 + b.2.2.1, a.2.2.2 + b.2.2.2)

/-- Scalar multiplication of a 2-point, the embedding of `math::mul2`. -/
def mul2 {α : Type} [Mul α] (a : α × α) (s : α) : α × α := (a.1 * s, a.2 * s)

/-- Scalar multiplication of a 3-point, the embedding of `math::mul3`. -/
def mul3 {α : Type} [Mul α] (a : α × α × α) (s : α) : α × α × α :=
  (a.1 * s, a.2.1 * s, a.2.2 * s)

/-- Scalar multiplication of a 4-point, the embedding of `math::mul4`. -/
def mul4 {α : Type} [Mul α] (a : α × α × α × α) (s : α) : α × α × α × α :=
  (a.1 * s, a.2.1 * s, a.2.2.1 * s, a.2.2.2 * s)

/-- The all-ones 2-point, the embedding of `math::one2`. -/
def one2 {α : Type} [One α] : α × α := (1, 1)

/-- The all-ones 3-point, the embedding of `math::one3`. -/
def one3 {α : Type} [One α] : α × α × α := (1, 1, 1)

/-- The all-ones 4-point, the embedding of `math::one4`. -/
def one4 {α : Type} [One α] : α × α × α × α := (1, 1, 1, 1)

/-- Dot product of 2-points, the embedding of `math::dot2`. -/
def dot2 (a b : Point2) : ℚ := a.1 * b.1 + a.2 * b.2

/-- Dot product of 3-points, the embedding of `math::dot3`. -/
def dot3 (a b : Point3) : ℚ := a.1 * b.1 + a.2.1 * b.2.1 + a.2.2 * b.2.2

/-- Dot product of 4-points, the embedding of `math::dot4`. -/
def dot4 (a b : Point4) : ℚ :=
  a.1 * b.1 + a.2.1 * b.2.1 + a.2.2.1 * b.2.2.1 + a.2.2.2 * b.2.2.2

/-- Fourth power, the embedding of `math::pow4`. -/
def pow4 (x : ℚ) : ℚ := x * x * x * x

/-- Modelled from the spec: `math::mod2` is not in the provided sources;
section 4.2 step 2 asks the near and far corners to be reduced "modulo
`period` per axis", and the seamless-tiling property of section 8 requires
the mathematical (always nonnegative for a positive modulus) remainder, so
the reduction is modelled componentwise by `Int.emod`. -/
def mod2 (a : ℤ × ℤ) (m : ℤ) : ℤ × ℤ := (a.1 % m, a.2 % m)

/-- Modelled from the spec: componentwise modulus for 3-points, as `mod2`. -/
def mod3 (a : ℤ × ℤ × ℤ) (m : ℤ) : ℤ × ℤ × ℤ := (a.1 % m, a.2.1 % m, a.2.2 % m)

/-- Modelled from the spec: componentwise modulus for 4-points, as `mod2`. -/
def mod4 (a : ℤ × ℤ × ℤ × ℤ) (m : ℤ) : ℤ × ℤ × ℤ × ℤ :=
  (a.1 % m, a.2.1 % m, a.2.2.1 % m, a.2.2.2 % m)

/-- Embedding of the numeric cast `T -> isize` applied to floor values: the
source only ever applies it to integral floats (results of `T::floor`), where
the Rust cast is exactly the floor. -/
def ratToInt (q : ℚ) : ℤ := ⌊q⌋

/-- Embedding of the numeric cast `T -> usize` used by
`build_sources_periodic`: the Rust `NumCast` conversion from a float to
`usize` truncates; on the nonnegative values it is applied to, truncation is
the floor, clipped to `ℕ`. -/
def ratToNat (q : ℚ) : ℕ := (⌊q⌋).toNat

/-- Rounding of a rational to the nearest integer with ties broken to the
even integer, the rounding mode of IEEE-754 conversions. -/
def rne (x : ℚ) : ℤ :=
  if Int.fract x < 1 / 2 then ⌊x⌋
  else if 1 / 2 < Int.fract x then ⌊x⌋ + 1
  else if 2 ∣ ⌊x⌋ then ⌊x⌋ else ⌊x⌋ + 1

/-- Modelled from the semantics of `math::cast::<_, f32>` in the RidgedMulti
clamp (the `math` module itself is not in the provided sources; the Rust
float-to-float conversion rounds to the nearest representable value, ties to
even): rounding of an exact value to the IEEE-754 binary32 grid, whose
spacing at magnitude `a` is `2 ^ (Int.log 2 a - 23)` for normal values, down
to the subnormal spacing `2 ^ (-149)` near zero. The overflow-to-infinity
case above `2 ^ 128` is not modelled: the two clamp comparisons are against
0 and 1, and a value that large stays on the same side of both bounds after
rounding, with or without the overflow. -/
def castF32 (q : ℚ) : ℚ :=
  if q = 0 then 0
  else
    (rne (q / 2 ^ (max (Int.log 2 |q| - 23) (-149) : ℤ)) : ℚ) *
      2 ^ (max (Int.log 2 |q| - 23) (-149) : ℤ)

/-- The weight clamp exactly as the source writes it (ridgedmulti.rs, all
three dimensions): both comparisons are made on the weight cast to `f32`,
while the assigned constants and the untouched weight stay in the working
type. -/
def clampF32 (w : ℚ) : ℚ :=
  if 1 < castF32 w then 1 else if castF32 w < 0 then 0 else w

/-- Modelled from the spec (section 3, Seeded Lookup Table): an immutable
256-entry permutation table derived deterministically from an integer seed.
The spec leaves the exact seeded construction open (section 9), so the table
is modelled as an arbitrary deterministic seed-indexed permutation (a cyclic
shift by the seed); no claim below depends on the individual entries. The
field holds the lookup function on indices taken modulo the table size. -/
structure PermutationTable where
  table : ℕ → ℕ

/-- Modelled from the spec: deterministic construction of the table from a
seed, `PermutationTable::new(seed)`. -/
def PermutationTable.new (seed : ℕ) : PermutationTable :=
  ⟨fun i => (i + seed) % 256⟩

/-- Table lookup with the index wrapped modulo the table size (256). -/
def PermutationTable.lookup (t : PermutationTable) (i : ℕ) : ℕ :=
  t.table (i % 256)

/-- Reduction of one signed lattice coordinate to a table index, by the
mathematical remainder modulo the table size. -/
def coordIndex (c : ℤ) : ℕ := (c % 256).toNat

/-- Modelled from the spec (section 4.1): hash of 2-dimensional integer
coordinates by chaining per-axis lookups left to right, each step re-indexing
the table by the sum of the previous result and the next axis value, modulo
the table size; the embedding of `PermutationTable::get2`. -/
def PermutationTable.get2 (t : PermutationTable) (c : ℤ × ℤ) : ℕ :=
  t.lookup (t.lookup (coordIndex c.1) + coordIndex c.2)

/-- Modelled from the spec (section 4.1): the same chaining extended to 3
coordinates; the embedding of `PermutationTable::get3`. -/
def PermutationTable.get3 (t : PermutationTable) (c : ℤ × ℤ × ℤ) : ℕ :=
  t.lookup (t.lookup (t.lookup (coordIndex c.1) + coordIndex c.2.1) + coordIndex c.2.2)

/-- Modelled from the spec (section 4.1): the same chaining extended to 4
coordinates; the embedding of `PermutationTable::get4`. -/
def PermutationTable.get4 (t : PermutationTable) (c : ℤ × ℤ × ℤ × ℤ) : ℕ :=
  t.lookup (t.lookup (t.lookup (t.lookup (coordIndex c.1) + coordIndex c.2.1) +
    coordIndex c.2.2.1) + coordIndex c.2.2.2)

/-- Modelled from the spec (section 3, Gradient Set): a fixed hand-curated
set of well-distributed 2-dimensional direction vectors, selected by the hash
value reduced modulo the set size; the embedding of `gradient::get2`. No
claim below depends on the individual vectors. -/
def gradient2 (h : ℕ) : Point2 :=
  match h % 4 with
  | 0 => (1, 1)
  | 1 => (-1, 1)
  | 2 => (1, -1)
  | _ => (-1, -1)

/-- Modelled from the spec (section 3, Gradient Set): the 3-dimensional
direction set, the embedding of `gradient::get3`. -/
def gradient3 (h : ℕ) : Point3 :=
  match h % 6 with
  | 0 => (1, 1, 0)
  | 1 => (-1, 1, 0)
  | 2 => (1, 0, -1)
  | 3 => (-1, 0, 1)
  | 4 => (0, 1, -1)
  | _ => (0, -1, -1)

/-- Modelled from the spec (section 3, Gradient Set): the 4-dimensional
direction set, the embedding of `gradient::get4`. -/
def gradient4 (h : ℕ) : Point4 :=
  match h % 8 with
  | 0 => (1, 1, 0, 0)
  | 1 => (-1, 1, 0, 0)
  | 2 => (1, 0, -1, 0)
  | 3 => (-1, 0, 1, 0)
  | 4 => (0, 1, 0, -1)
  | 5 => (0, -1, 0, -1)
  | 6 => (0, 0, 1, 1)
  | _ => (0, 0, -1, 1)

/-- Default noise seed for the Perlin noise module. -/
def DEFAULT_PERLIN_SEED : ℕ := 0

/-- Default period for the Perlin noise module. -/
def DEFAULT_PERLIN_PERIOD : ℕ := 256

/-- The `Perlin` noise module: a permutation table, its seed, the wrap
period and the periodicity flag, as in `modules/generators/perlin.rs`. -/
structure Perlin where
  perm_table : PermutationTable
  seed : ℕ
  period : ℕ
  enable_period : Bool

/-- Embedding of `Perlin::new`. -/
def Perlin.new : Perlin :=
  { perm_table := PermutationTable.new DEFAULT_PERLIN_SEED
    seed := DEFAULT_PERLIN_SEED
    period := DEFAULT_PERLIN_PERIOD
    enable_period := false }

/-- Embedding of `Perlin::set_seed`: rebuilds the table, keeps the rest. -/
def Perlin.set_seed (m : Perlin) (seed : ℕ) : Perlin :=
  { m with perm_table := PermutationTable.new seed, seed := seed }

/-- Embedding of `Perlin::set_period`: stores the period and enables
periodic wrapping. -/
def Perlin.set_period (m : Perlin) (period : ℕ) : Perlin :=
  { m with period := period, enable_period := true }

/-- Embedding of the inner `surflet` function of the 2-dimensional
`Perlin::get`. -/
def surflet2 (perm_table : PermutationTable) (corner : ℤ × ℤ)
    (distance : Point2) : ℚ :=
  let attn : ℚ := 1 - dot2 distance distance
  if 0 < attn then pow4 attn * dot2 distance (gradient2 (perm_table.get2 corner))
  else 0

/-- Embedding of the 2-dimensional `Perlin::get`. -/
def Perlin.get2 (m : Perlin) (point : Point2) : ℚ :=
  let floored := map2 point (fun q => ((⌊q⌋ : ℤ) : ℚ))
  let near_distance := sub2 point floored
  let far_distance := sub2 near_distance one2
  let corners : (ℤ × ℤ) × (ℤ × ℤ) :=
    if m.enable_period then
      let near := map2 floored ratToInt
      let near := mod2 near (m.period : ℤ)
      let far := add2 near one2
      let far := mod2 far (m.period : ℤ)
      (near, far)
    else
      let near := map2 floored ratToInt
      let far := add2 near one2
      (near, far)
  let near_corner := corners.1
  let far_corner := corners.2
  let f00 := surflet2 m.perm_table (near_corner.1, near_corner.2)
    (near_distance.1, near_distance.2)
  let f10 := surflet2 m.perm_table (far_corner.1, near_corner.2)
    (far_distance.1, near_distance.2)
  let f01 := surflet2 m.perm_table (near_corner.1, far_corner.2)
    (near_distance.1, far_distance.2)
  let f11 := surflet2 m.perm_table (far_corner.1, far_corner.2)
    (far_distance.1, far_distance.2)
  (f00 + f10 + f01 + f11) * (3.1604938271604937 : ℚ)

/-- Embedding of the inner `surflet` function of the 3-dimensional
`Perlin::get`. -/
def surflet3 (perm_table : PermutationTable) (corner : ℤ × ℤ × ℤ)
    (distance : Point3) : ℚ :=
  let attn : ℚ := 1 - dot3 distance distance
  if 0 < attn then pow4 attn * dot3 distance (gradient3 (perm_table.get3 corner))
  else 0

/-- Embedding of the 3-dimensional `Perlin::get`. -/
def Perlin.get3 (m : Perlin) (point : Point3) : ℚ :=
  let floored := map3 point (fun q => ((⌊q⌋ : ℤ) : ℚ))
  let near_distance := sub3 point floored
  let far_distance := sub3 near_distance one3
  let corners : (ℤ × ℤ × ℤ) × (ℤ × ℤ × ℤ) :=
    if m.enable_period then
      let near := map3 floored ratToInt
      let near := mod3 near (m.period : ℤ)
      let far := add3 near one3
      let far := mod3 far (m.period : ℤ)
      (near, far)
    else
      let near := map3 floored ratToInt
      let far := add3 near one3
      (near, far)
  let near_corner := corners.1
  let far_corner := corners.2
  let f000 := surflet3 m.perm_table (near_corner.1, near_corner.2.1, near_corner.2.2)
    (near_distance.1, near_distance.2.1, near_distance.2.2)
  let f100 := surflet3 m.perm_table (far_corner.1, near_corner.2.1, near_corner.2.2)
    (far_distance.1, near_distance.2.1, near_distance.2.2)
  let f010 := surflet3 m.perm_table (near_corner.1, far_corner.2.1, near_corner.2.2)
    (near_distance.1, far_distance.2.1, near_distance.2.2)
  let f110 := surflet3 m.perm_table (far_corner.1, far_corner.2.1, near_corner.2.2)
    (far_distance.1, far_distance.2.1, near_distance.2.2)
  let f001 := surflet3 m.perm_table (near_corner.1, near_corner.2.1, far_corner.2.2)
    (near_distance.1, near_distance.2.1, far_distance.2.2)
  let f101 := surflet3 m.perm_table (far_corner.1, near_corner.2.1, far_corner.2.2)
    (far_distance.1, near_distance.2.1, far_distance.2.2)
  let f011 := surflet3 m.perm_table (near_corner.1, far_corner.2.1, far_corner.2.2)
    (near_distance.1, far_distance.2.1, far_distance.2.2)
  let f111 := surflet3 m.perm_table (far_corner.1, far_corner.2.1, far_corner.2.2)
    (far_distance.1, far_distance.2.1, far_distance.2.2)
  (f000 + f100 + f010 + f110 + f001 + f101 + f011 + f111) *
    (3.8898553255531074 : ℚ)

/-- Embedding of the inner `surflet` function of the 4-dimensional
`Perlin::get`. -/
def surflet4 (perm_table : PermutationTable) (corner : ℤ × ℤ × ℤ × ℤ)
    (distance : Point4) : ℚ :=
  let attn : ℚ := 1 - dot4 distance distance
  if 0 < attn then pow4 attn * dot4 distance (gradient4 (perm_table.get4 corner))
  else 0

/-- Embedding of the 4-dimensional `Perlin::get`. -/
def Perlin.get4 (m : Perlin) (point : Point4) : ℚ :=
  let floored := map4 point (fun q => ((⌊q⌋ : ℤ) : ℚ))
  let near_distance := sub4 point floored
  let far_distance := sub4 near_distance one4
  let corners : (ℤ × ℤ × ℤ × ℤ) × (ℤ × ℤ × ℤ × ℤ) :=
    if m.enable_period then
      let near := map4 floored ratToInt
      let near := mod4 near (m.period : ℤ)
      let far := add4 near one4
      let far := mod4 far (m.period : ℤ)
      (near, far)
    else
      let near := map4 floored ratToInt
      let far := add4 near one4
      (near, far)
  let nc := corners.1
  let fc := corners.2
  let nd := near_distance
  let fd := far_distance
  let f0000 := surflet4 m.perm_table (nc.1, nc.2.1, nc.2.2.1, nc.2.2.2)
    (nd.1, nd.2.1, nd.2.2.1, nd.2.2.2)
  let f1000 := surflet4 m.perm_table (fc.1, nc.2.1, nc.2.2.1, nc.2.2.2)
    (fd.1, nd.2.1, nd.2.2.1, nd.2.2.2)
  let f0100 := surflet4 m.perm_table (nc.1, fc.2.1, nc.2.2.1, nc.2.2.2)
    (nd.1, fd.2.1, nd.2.2.1, nd.2.2.2)
  let f1100 := surflet4 m.perm_table (fc.1, fc.2.1, nc.2.2.1, nc.2.2.2)
    (fd.1, fd.2.1, nd.2.2.1, nd.2.2.2)
  let f0010 := surflet4 m.perm_table (nc.1, nc.2.1, fc.2.2.1, nc.2.2.2)
    (nd.1, nd.2.1, fd.2.2.1, nd.2.2.2)
  let f1010 := surflet4 m.perm_table (fc.1, nc.2.1, fc.2.2.1, nc.2.2.2)
    (fd.1, nd.2.1, fd.2.2.1, nd.2.2.2)
  let f0110 := surflet4 m.perm_table (nc.1, fc.2.1, fc.2.2.1, nc.2.2.2)
    (nd.1, fd.2.1, fd.2.2.1, nd.2.2.2)
  let f1110 := surflet4 m.perm_table (fc.1, fc.2.1, fc.2.2.1, nc.2.2.2)
    (fd.1, fd.2.1, fd.2.2.1, nd.2.2.2)
  let f0001 := surflet4 m.perm_table (nc.1, nc.2.1, nc.2.2.1, fc.2.2.2)
    (nd.1, nd.2.1, nd.2.2.1, fd.2.2.2)
  let f1001 := surflet4 m.perm_table (fc.1, nc.2.1, nc.2.2.1, fc.2.2.2)
    (fd.1, nd.2.1, nd.2.2.1, fd.2.2.2)
  let f0101 := surflet4 m.perm_table (nc.1, fc.2.1, nc.2.2.1, fc.2.2.2)
    (nd.1, fd.2.1, nd.2.2.1, fd.2.2.2)
  let f1101 := surflet4 m.perm_table (fc.1, fc.2.1, nc.2.2.1, fc.2.2.2)
    (fd.1, fd.2.1, nd.2.2.1, fd.2.2.2)
  let f0011 := surflet4 m.perm_table (nc.1, nc.2.1, fc.2.2.1, fc.2.2.2)
    (nd.1, nd.2.1, fd.2.2.1, fd.2.2.2)
  let f1011 := surflet4 m.perm_table (fc.1, nc.2.1, fc.2.2.1, fc.2.2.2)
    (fd.1, nd.2.1, fd.2.2.1, fd.2.2.2)
  let f0111 := surflet4 m.perm_table (nc.1, fc.2.1, fc.2.2.1, fc.2.2.2)
    (nd.1, fd.2.1, fd.2.2.1, fd.2.2.2)
  let f1111 := surflet4 m.perm_table (fc.1, fc.2.1, fc.2.2.1, fc.2.2.2)
    (fd.1, fd.2.1, fd.2.2.1, fd.2.2.2)
  (f0000 + f1000 + f0100 + f1100 + f0010 + f1010 + f0110 + f1110 + f0001 +
   f1001 + f0101 + f1101 + f0011 + f1011 + f0111 + f1111) *
    (4.424369240215691 : ℚ)

/-- Selection of the far or near component of a corner, used by the
spec-side corner enumeration: `true` picks the far value. -/
def pick {α : Type} (b : Bool) (farv nearv : α) : α := if b then farv else nearv

/-- Spec-side surflet contribution (section 4.2 step 3): `attn` is one minus
the squared distance; a positive `attn` contributes the fourth power of
`attn` times the dot product of the distance with the hashed gradient, and
otherwise the contribution is zero. Stated from the words of the spec as the
refinement target of claim C2. -/
def specContribution2 (t : PermutationTable) (corner : ℤ × ℤ)
    (distance : Point2) : ℚ :=
  let attn : ℚ := 1 - dot2 distance distance
  if 0 < attn then pow4 attn * dot2 distance (gradient2 (t.get2 corner)) else 0

/-- Spec-side surflet contribution in 3 dimensions, as `specContribution2`. -/
def specContribution3 (t : PermutationTable) (corner : ℤ × ℤ × ℤ)
    (distance : Point3) : ℚ :=
  let attn : ℚ := 1 - dot3 distance distance
  if 0 < attn then pow4 attn * dot3 distance (gradient3 (t.get3 corner)) else 0

/-- Spec-side surflet contribution in 4 dimensions, as `specContribution2`. -/
def specContribution4 (t : PermutationTable) (corner : ℤ × ℤ × ℤ × ℤ)
    (distance : Point4) : ℚ :=
  let attn : ℚ := 1 - dot4 distance distance
  if 0 < attn then pow4 attn * dot4 distance (gradient4 (t.get4 corner)) else 0

/-- Spec-side 2-dimensional kernel (section 4.2, steps 1 to 4, stated from
the words of the spec as the refinement target of claim C2): floor the point,
form near and far distances, form near and far integer corners (`far` is
`near + 1`, and with periodic wrapping both are reduced modulo the period per
axis), sum the contributions of all four corners, and scale by the
2-dimensional normalization constant. -/
def Perlin.specGet2 (m : Perlin) (point : Point2) : ℚ :=
  let nearD : Point2 := (point.1 - ⌊point.1⌋, point.2 - ⌊point.2⌋)
  let farD : Point2 := (nearD.1 - 1, nearD.2 - 1)
  let nearR : ℤ × ℤ := (⌊point.1⌋, ⌊point.2⌋)
  let farR : ℤ × ℤ := (nearR.1 + 1, nearR.2 + 1)
  let near : ℤ × ℤ :=
    if m.enable_period then (nearR.1 % (m.period : ℤ), nearR.2 % (m.period : ℤ))
    else nearR
  let far : ℤ × ℤ :=
    if m.enable_period then (farR.1 % (m.period : ℤ), farR.2 % (m.period : ℤ))
    else farR
  let corners : List (Bool × Bool) :=
    [(false, false), (true, false), (false, true), (true, true)]
  (corners.map (fun s => specContribution2 m.perm_table
      (pick s.1 far.1 near.1, pick s.2 far.2 near.2)
      (pick s.1 farD.1 nearD.1, pick s.2 farD.2 nearD.2))).sum *
    (3.1604938271604937 : ℚ)

/-- Spec-side 3-dimensional kernel, as `Perlin.specGet2`. -/
def Perlin.specGet3 (m : Perlin) (point : Point3) : ℚ :=
  let nearD : Point3 :=
    (point.1 - ⌊point.1⌋, point.2.1 - ⌊point.2.1⌋, point.2.2 - ⌊point.2.2⌋)
  let farD : Point3 := (nearD.1 - 1, nearD.2.1 - 1, nearD.2.2 - 1)
  let nearR : ℤ × ℤ × ℤ := (⌊point.1⌋, ⌊point.2.1⌋, ⌊point.2.2⌋)
  let farR : ℤ × ℤ × ℤ := (nearR.1 + 1, nearR.2.1 + 1, nearR.2.2 + 1)
  let near : ℤ × ℤ × ℤ :=
    if m.enable_period then
      (nearR.1 % (m.period : ℤ), nearR.2.1 % (m.period : ℤ), nearR.2.2 % (m.period : ℤ))
    else nearR
  let far : ℤ × ℤ × ℤ :=
    if m.enable_period then
      (farR.1 % (m.period : ℤ), farR.2.1 % (m.period : ℤ), farR.2.2 % (m.period : ℤ))
    else farR
  let corners : List (Bool × Bool × Bool) :=
    [(false, false, false), (true, false, false), (false, true, false),
     (true, true, false), (false, false, true), (true, false, true),
     (false, true, true), (true, true, true)]
  (corners.map (fun s => specContribution3 m.perm_table
      (pick s.1 far.1 near.1, pick s.2.1 far.2.1 near.2.1, pick s.2.2 far.2.2 near.2.2)
      (pick s.1 farD.1 nearD.1, pick s.2.1 farD.2.1 nearD.2.1,
        pick s.2.2 farD.2.2 nearD.2.2))).sum *
    (3.8898553255531074 : ℚ)

/-- Spec-side 4-dimensional kernel, as `Perlin.specGet2`. -/
def Perlin.specGet4 (m : Perlin) (point : Point4) : ℚ :=
  let nearD : Point4 :=
    (point.1 - ⌊point.1⌋, point.2.1 - ⌊point.2.1⌋, point.2.2.1 - ⌊point.2.2.1⌋,
      point.2.2.2 - ⌊point.2.2.2⌋)
  let farD : Point4 := (nearD.1 - 1, nearD.2.1 - 1, nearD.2.2.1 - 1, nearD.2.2.2 - 1)
  let nearR : ℤ × ℤ × ℤ × ℤ :=
    (⌊point.1⌋, ⌊point.2.1⌋, ⌊point.2.2.1⌋, ⌊point.2.2.2⌋)
  let farR : ℤ × ℤ × ℤ × ℤ :=
    (nearR.1 + 1, nearR.2.1 + 1, nearR.2.2.1 + 1, nearR.2.2.2 + 1)
  let near : ℤ × ℤ × ℤ × ℤ :=
    if m.enable_period then
      (nearR.1 % (m.period : ℤ), nearR.2.1 % (m.period : ℤ),
        nearR.2.2.1 % (m.period : ℤ), nearR.2.2.2 % (m.period : ℤ))
    else nearR
  let far : ℤ × ℤ × ℤ × ℤ :=
    if m.enable_period then
      (farR.1 % (m.period : ℤ), farR.2.1 % (m.period : ℤ),
        farR.2.2.1 % (m.period : ℤ), farR.2.2.2 % (m.period : ℤ))
    else farR
  let corners : List (Bool × Bool × Bool × Bool) :=
    [(false, false, false, false), (true, false, false, false),
     (false, true, false, false), (true, true, false, false),
     (false, false, true, false), (true, false, true, false),
     (false, true, true, false), (true, true, true, false),
     (false, false, false, true), (true, false, false, true),
     (false, true, false, true), (true, true, false, true),
     (false, false, true, true), (true, false, true, true),
     (false, true, true, true), (true, true, true, true)]
  (corners.map (fun s => specContribution4 m.perm_table
      (pick s.1 far.1 near.1, pick s.2.1 far.2.1 near.2.1,
        pick s.2.2.1 far.2.2.1 near.2.2.1, pick s.2.2.2 far.2.2.2 near.2.2.2)
      (pick s.1 farD.1 nearD.1, pick s.2.1 farD.2.1 nearD.2.1,
        pick s.2.2.1 farD.2.2.1 nearD.2.2.1,
        pick s.2.2.2 farD.2.2.2 nearD.2.2.2))).sum *
    (4.424369240215691 : ℚ)

/-- Default noise seed for the RidgedMulti noise module. -/
def DEFAULT_RIDGED_SEED : ℕ := 0

/-- Default number of octaves for the RidgedMulti noise module. -/
def DEFAULT_RIDGED_OCTAVE_COUNT : ℕ := 6

/-- Default frequency for the RidgedMulti noise module. -/
def DEFAULT_RIDGED_FREQUENCY : ℚ := 1

/-- Default lacunarity for the RidgedMulti noise module. -/
def DEFAULT_RIDGED_LACUNARITY : ℚ := 2

/-- Default persistence for the RidgedMulti noise module. -/
def DEFAULT_RIDGED_PERSISTENCE : ℚ := 1

/-- Default gain for the RidgedMulti noise module. -/
def DEFAULT_RIDGED_GAIN : ℚ := 2

/-- Default period for the RidgedMulti noise module. -/
def DEFAULT_RIDGED_PERIOD : ℕ := 256

/-- Maximum number of octaves for the RidgedMulti noise module. -/
def RIDGED_MAX_OCTAVES : ℕ := 32

/-- Embedding of `build_sources` in `fractals/mod.rs`: one Perlin kernel per
octave, seeded with the base seed offset by the octave index. -/
def build_sources (seed octaves : ℕ) : List Perlin :=
  (List.range octaves).map (fun x => Perlin.new.set_seed (seed + x))

/-- Recursion underlying `build_sources_periodic`: the loop carries the
running period, which is multiplied by the lacunarity and cast back to
`usize` after each octave. -/
def build_sources_periodic_aux (seed : ℕ) (lacunarity : ℚ) :
    ℕ → ℕ → ℕ → List Perlin
  | 0, _, _ => []
  | n + 1, x, period =>
    (Perlin.new.set_seed (seed + x)).set_period period ::
      build_sources_periodic_aux seed lacunarity n (x + 1)
        (ratToNat ((period : ℚ) * lacunarity))

/-- Embedding of `build_sources_periodic` in `fractals/mod.rs`. -/
def build_sources_periodic (seed octaves period : ℕ) (lacunarity : ℚ) :
    List Perlin :=
  build_sources_periodic_aux seed lacunarity octaves 0 period

/-- The `RidgedMulti<T>` noise module at `T = ℚ`, as in
`fractals/ridgedmulti.rs`. -/
structure RidgedMulti where
  seed : ℕ
  octaves : ℕ
  frequency : ℚ
  lacunarity : ℚ
  persistence : ℚ
  gain : ℚ
  period : ℕ
  enable_period : Bool
  sources : List Perlin

/-- Embedding of `RidgedMulti::new`. -/
def RidgedMulti.new : RidgedMulti :=
  { seed := DEFAULT_RIDGED_SEED
    octaves := DEFAULT_RIDGED_OCTAVE_COUNT
    frequency := DEFAULT_RIDGED_FREQUENCY
    lacunarity := DEFAULT_RIDGED_LACUNARITY
    persistence := DEFAULT_RIDGED_PERSISTENCE
    gain := DEFAULT_RIDGED_GAIN
    period := DEFAULT_RIDGED_PERIOD
    enable_period := false
    sources := build_sources DEFAULT_RIDGED_SEED DEFAULT_RIDGED_OCTAVE_COUNT }

/-- Embedding of `RidgedMulti::set_seed`: a no-op on an equal seed, and
otherwise a rebuild of the source vector (periodic when enabled). -/
def RidgedMulti.set_seed (m : RidgedMulti) (seed : ℕ) : RidgedMulti :=
  if m.seed = seed then m
  else if !m.enable_period then
    { m with seed := seed, sources := build_sources seed m.octaves }
  else
    { m with
      seed := seed
      sources := build_sources_periodic seed m.octaves m.period m.lacunarity }

/-- Embedding of `RidgedMulti::set_octaves`: a no-op on an equal count,
otherwise the request is clamped to `[1, RIDGED_MAX_OCTAVES]` and the source
vector rebuilt. -/
def RidgedMulti.set_octaves (m : RidgedMulti) (octaves : ℕ) : RidgedMulti :=
  if m.octaves = octaves then m
  else
    let octaves := if octaves > RIDGED_MAX_OCTAVES then RIDGED_MAX_OCTAVES
      else if octaves < 1 then 1 else octaves
    if !m.enable_period then
      { m with octaves := octaves, sources := build_sources m.seed octaves }
    else
      { m with
        octaves := octaves
        sources := build_sources_periodic m.seed octaves m.period m.lacunarity }

/-- Embedding of `RidgedMulti::set_frequency`. -/
def RidgedMulti.set_frequency (m : RidgedMulti) (frequency : ℚ) : RidgedMulti :=
  { m with frequency := frequency }

/-- Embedding of `RidgedMulti::set_lacunarity`: rebuilds the source vector
only when periodicity is enabled. -/
def RidgedMulti.set_lacunarity (m : RidgedMulti) (lacunarity : ℚ) : RidgedMulti :=
  if !m.enable_period then { m with lacunarity := lacunarity }
  else
    { m with
      lacunarity := lacunarity
      sources := build_sources_periodic m.seed m.octaves m.period lacunarity }

/-- Embedding of `RidgedMulti::set_period`: stores the period, enables
periodicity and rebuilds the source vector. -/
def RidgedMulti.set_period (m : RidgedMulti) (period : ℕ) : RidgedMulti :=
  { m with
    period := period
    enable_period := true
    sources := build_sources_periodic m.seed m.octaves period m.lacunarity }

/-- Embedding of `RidgedMulti::set_persistence`. -/
def RidgedMulti.set_persistence (m : RidgedMulti) (persistence : ℚ) : RidgedMulti :=
  { m with persistence := persistence }

/-- Embedding of `RidgedMulti::set_gain`. -/
def RidgedMulti.set_gain (m : RidgedMulti) (gain : ℚ) : RidgedMulti :=
  { m with gain := gain }

/-- Embedding of the octave loop shared by the three `RidgedMulti::get`
implementations, parameterized by the per-dimension kernel evaluation and
scalar point multiplication; the first `ℕ` argument is the number of
remaining octaves, the second the current octave index. Out-of-range
indexing of the source vector aborts in the source; the total embedding
returns the default kernel there, a case no evaluation reaches because the
source vector is kept exactly `octaves` long. -/
def ridgedLoop {P : Type} (eval : Perlin → P → ℚ) (mulP : P → ℚ → P)
    (sources : List Perlin) (gain persistence lacunarity : ℚ) :
    ℕ → ℕ → P → ℚ → ℚ → ℚ
  | 0, _, _, result, _ => result
  | n + 1, x, point, result, weight =>
    let signal := eval (sources.getD x Perlin.new) point
    let signal := |signal|
    let signal := 1 - signal
    let signal := signal * signal
    let signal := signal * weight
    let weight := signal * gain
    let weight :=
      if 1 < castF32 weight then 1 else if castF32 weight < 0 then 0 else weight
    let signal := signal * persistence ^ x
    let result := result + signal
    ridgedLoop eval mulP sources gain persistence lacunarity n (x + 1)
      (mulP point lacunarity) result weight

/-- Embedding of the 2-dimensional `RidgedMulti::get`: the octave loop from
`result = 0`, `weight = 1` on the frequency-scaled point, followed by the
final fused multiply-add `result * (1/3) + (-1)`. -/
def RidgedMulti.get2 (m : RidgedMulti) (p : Point2) : ℚ :=
  ridgedLoop Perlin.get2 mul2 m.sources m.gain m.persistence m.lacunarity
    m.octaves 0 (mul2 p m.frequency) 0 1 * (1 / 3 : ℚ) + (-1)

/-- Embedding of the 3-dimensional `RidgedMulti::get`. -/
def RidgedMulti.get3 (m : RidgedMulti) (p : Point3) : ℚ :=
  ridgedLoop Perlin.get3 mul3 m.sources m.gain m.persistence m.lacunarity
    m.octaves 0 (mul3 p m.frequency) 0 1 * (1 / 3 : ℚ) + (-1)

/-- Embedding of the 4-dimensional `RidgedMulti::get`. -/
def RidgedMulti.get4 (m : RidgedMulti) (p : Point4) : ℚ :=
  ridgedLoop Perlin.get4 mul4 m.sources m.gain m.persistence m.lacunarity
    m.octaves 0 (mul4 p m.frequency) 0 1 * (1 / 3 : ℚ) + (-1)

/-- Clamping of a value to an interval, the `clamp` of the spec pseudocode. -/
def clampQ (x lo hi : ℚ) : ℚ := max lo (min hi x)

/-- Spec-side octave loop, stated from the ridged-multifractal pseudocode of
spec section 4.3 exactly as claim C1 states it (with the exact
`clamp(signal * gain, 0, 1)`): per octave `i`,
`signal` is `(1 - |source evaluation|) ^ 2 * weight`, then `weight` is
`clamp(signal * gain, 0, 1)`, then `signal` is scaled by `persistence ^ i`
and added to the result, and the point is scaled by the lacunarity. -/
def ridgedSpecLoop {P : Type} (eval : Perlin → P → ℚ) (mulP : P → ℚ → P)
    (sources : List Perlin) (gain persistence lacunarity : ℚ) :
    ℕ → ℕ → P → ℚ → ℚ → ℚ
  | 0, _, _, result, _ => result
  | n + 1, i, point, result, weight =>
    let signal := eval (sources.getD i Perlin.new) point
    let signal := (1 - |signal|) ^ 2 * weight
    let weight := clampQ (signal * gain) 0 1
    let signal := signal * persistence ^ i
    let result := result + signal
    ridgedSpecLoop eval mulP sources gain persistence lacunarity n (i + 1)
      (mulP point lacunarity) result weight

/-- Spec-side 2-dimensional ridged-multifractal evaluation: the pseudocode
loop from `result = 0`, `weight = 1`, `point = p * frequency`, returning
`result * (1/3) - 1`. -/
def RidgedMulti.specGet2 (m : RidgedMulti) (p : Point2) : ℚ :=
  ridgedSpecLoop Perlin.get2 mul2 m.sources m.gain m.persistence m.lacunarity
    m.octaves 0 (mul2 p m.frequency) 0 1 * (1 / 3 : ℚ) - 1

/-- Spec-side 3-dimensional ridged-multifractal evaluation. -/
def RidgedMulti.specGet3 (m : RidgedMulti) (p : Point3) : ℚ :=
  ridgedSpecLoop Perlin.get3 mul3 m.sources m.gain m.persistence m.lacunarity
    m.octaves 0 (mul3 p m.frequency) 0 1 * (1 / 3 : ℚ) - 1

/-- Spec-side 4-dimensional ridged-multifractal evaluation. -/
def RidgedMulti.specGet4 (m : RidgedMulti) (p : Point4) : ℚ :=
  ridgedSpecLoop Perlin.get4 mul4 m.sources m.gain m.persistence m.lacunarity
    m.octaves 0 (mul4 p m.frequency) 0 1 * (1 / 3 : ℚ) - 1

/-- The spec pseudocode loop with the single amendment the source forces on
claim C1: the `clamp(signal * gain, 0, 1)` step performs its comparisons on
the f32 cast of the operand (`clampF32`); every other step is the pseudocode
of spec section 4.3 unchanged. Refinement target of claim C1 as amended. -/
def ridgedSpecLoopF32 {P : Type} (eval : Perlin → P → ℚ) (mulP : P → ℚ → P)
    (sources : List Perlin) (gain persistence lacunarity : ℚ) :
    ℕ → ℕ → P → ℚ → ℚ → ℚ
  | 0, _, _, result, _ => result
  | n + 1, i, point, result, weight =>
    let signal := eval (sources.getD i Perlin.new) point
    let signal := (1 - |signal|) ^ 2 * weight
    let weight := clampF32 (signal * gain)
    let signal := signal * persistence ^ i
    let result := result + signal
    ridgedSpecLoopF32 eval mulP sources gain persistence lacunarity n (i + 1)
      (mulP point lacunarity) result weight

/-- Amended-spec 2-dimensional ridged-multifractal evaluation: the pseudocode
with the clamp comparisons on the f32 cast of the weight. -/
def RidgedMulti.specGet2F32 (m : RidgedMulti) (p : Point2) : ℚ :=
  ridgedSpecLoopF32 Perlin.get2 mul2 m.sources m.gain m.persistence m.lacunarity
    m.octaves 0 (mul2 p m.frequency) 0 1 * (1 / 3 : ℚ) - 1

/-- Amended-spec 3-dimensional ridged-multifractal evaluation. -/
def RidgedMulti.specGet3F32 (m : RidgedMulti) (p : Point3) : ℚ :=
  ridgedSpecLoopF32 Perlin.get3 mul3 m.sources m.gain m.persistence m.lacunarity
    m.octaves 0 (mul3 p m.frequency) 0 1 * (1 / 3 : ℚ) - 1

/-- Amended-spec 4-dimensional ridged-multifractal evaluation. -/
def RidgedMulti.specGet4F32 (m : RidgedMulti) (p : Point4) : ℚ :=
  ridgedSpecLoopF32 Perlin.get4 mul4 m.sources m.gain m.persistence m.lacunarity
    m.octaves 0 (mul4 p m.frequency) 0 1 * (1 / 3 : ℚ) - 1

/-- Ghost observer of the octave loop for claim C4: the list of the `weight`
values immediately after the clamping step of each octave, mirroring the
recursion of `ridgedLoop` (the steps that do not feed into `weight` are
dropped). -/
def ridgedWeightTrace {P : Type} (eval : Perlin → P → ℚ) (mulP : P → ℚ → P)
    (sources : List Perlin) (gain lacunarity : ℚ) :
    ℕ → ℕ → P → ℚ → List ℚ
  | 0, _, _, _ => []
  | n + 1, x, point, weight =>
    let signal := eval (sources.getD x Perlin.new) point
    let signal := |signal|
    let signal := 1 - signal
    let signal := signal * signal
    let signal := signal * weight
    let weight := signal * gain
    let weight :=
      if 1 < castF32 weight then 1 else if castF32 weight < 0 then 0 else weight
    weight :: ridgedWeightTrace eval mulP sources gain lacunarity n (x + 1)
      (mulP point lacunarity) weight

/-- Post-clamp weights of one 2-dimensional `RidgedMulti::get` call. -/
def RidgedMulti.weightTrace2 (m : RidgedMulti) (p : Point2) : List ℚ :=
  ridgedWeightTrace Perlin.get2 mul2 m.sources m.gain m.lacunarity
    m.octaves 0 (mul2 p m.frequency) 1

/-- Post-clamp weights of one 3-dimensional `RidgedMulti::get` call. -/
def RidgedMulti.weightTrace3 (m : RidgedMulti) (p : Point3) : List ℚ :=
  ridgedWeightTrace Perlin.get3 mul3 m.sources m.gain m.lacunarity
    m.octaves 0 (mul3 p m.frequency) 1

/-- Post-clamp weights of one 4-dimensional `RidgedMulti::get` call. -/
def RidgedMulti.weightTrace4 (m : RidgedMulti) (p : Point4) : List ℚ :=
  ridgedWeightTrace Perlin.get4 mul4 m.sources m.gain m.lacunarity
    m.octaves 0 (mul4 p m.frequency) 1

/-- The `Abs` modifier of `modules/modifiers/abs.rs`: in the shallow
embedding a source noise module is its evaluation function, and `Abs` holds
exactly that one source. -/
structure Abs (P : Type) where
  source : P → ℚ

/-- Embedding of `Abs::new`. -/
def Abs.new {P : Type} (source : P → ℚ) : Abs P := ⟨source⟩

/-- Embedding of `Abs::get`: the absolute value of the source output. -/
def Abs.get {P : Type} (m : Abs P) (point : P) : ℚ := |m.source point|

/-- The RidgedMulti instances reachable through `new()` and builder calls
(claims C5, C6). -/
inductive RidgedMulti.Reachable : RidgedMulti → Prop
  | new : RidgedMulti.Reachable RidgedMulti.new
  | set_seed : ∀ m s, RidgedMulti.Reachable m →
      RidgedMulti.Reachable (m.set_seed s)
  | set_octaves : ∀ m n, RidgedMulti.Reachable m →
      RidgedMulti.Reachable (m.set_octaves n)
  | set_frequency : ∀ m f, RidgedMulti.Reachable m →
      RidgedMulti.Reachable (m.set_frequency f)
  | set_lacunarity : ∀ m l, RidgedMulti.Reachable m →
      RidgedMulti.Reachable (m.set_lacunarity l)
  | set_period : ∀ m k, RidgedMulti.Reachable m →
      RidgedMulti.Reachable (m.set_period k)
  | set_persistence : ∀ m q, RidgedMulti.Reachable m →
      RidgedMulti.Reachable (m.set_persistence q)
  | set_gain : ∀ m g, RidgedMulti.Reachable m →
      RidgedMulti.Reachable (m.set_gain g)

/-- Iterated per-octave period scaling of `build_sources_periodic`: the
period handed to octave `i` is the `i`-fold iterate of multiplication by the
lacunarity followed by the cast back to `usize`. -/
def periodIter (period : ℕ) (lacunarity : ℚ) : ℕ → ℕ
  | 0 => period
  | n + 1 => ratToNat ((periodIter period lacunarity n : ℚ) * lacunarity)

/-- Source-vector invariant of claim C6 in its amended form: the vector is
exactly `octaves` long, entry `i` is seeded with `seed + i`, and when
periodicity is enabled entry `i` is periodic with the iterated period
`periodIter period lacunarity i`. -/
def RidgedMulti.sourcesInv (m : RidgedMulti) : Prop :=
  m.sources.length = m.octaves ∧
  ∀ i, i < m.sources.length →
    (m.sources.getD i Perlin.new).seed = m.seed + i ∧
    (m.enable_period = true →
      (m.sources.getD i Perlin.new).enable_period = true ∧
      (m.sources.getD i Perlin.new).period = periodIter m.period m.lacunarity i)

/-- Chains of builder calls starting from an arbitrary Perlin instance
(claim C10). -/
inductive Perlin.DerivedFrom : Perlin → Perlin → Prop
  | refl : ∀ m, Perlin.DerivedFrom m m
  | set_seed : ∀ m k s, Perlin.DerivedFrom m k →
      Perlin.DerivedFrom m (k.set_seed s)
  | set_period : ∀ m k n, Perlin.DerivedFrom m k →
      Perlin.DerivedFrom m (k.set_period n)

/-- Chains of builder calls starting from an arbitrary RidgedMulti instance
(claim C10). -/
inductive RidgedMulti.DerivedFrom : RidgedMulti → RidgedMulti → Prop
  | refl : ∀ m, RidgedMulti.DerivedFrom m m
  | set_seed : ∀ m k s, RidgedMulti.DerivedFrom m k →
      RidgedMulti.DerivedFrom m (k.set_seed s)
  | set_octaves : ∀ m k n, RidgedMulti.DerivedFrom m k →
      RidgedMulti.DerivedFrom m (k.set_octaves n)
  | set_frequency : ∀ m k f, RidgedMulti.DerivedFrom m k →
      RidgedMulti.DerivedFrom m (k.set_frequency f)
  | set_lacunarity : ∀ m k l, RidgedMulti.DerivedFrom m k →
      RidgedMulti.DerivedFrom m (k.set_lacunarity l)
  | set_period : ∀ m k n, RidgedMulti.DerivedFrom m k →
      RidgedMulti.DerivedFrom m (k.set_period n)
  | set_persistence : ∀ m k q, RidgedMulti.DerivedFrom m k →
      RidgedMulti.DerivedFrom m (k.set_persistence q)
  | set_gain : ∀ m k g, RidgedMulti.DerivedFrom m k →
      RidgedMulti.DerivedFrom m (k.set_gain g)


/-- Adding the modulus to an integer does not change its remainder. -/
theorem add_emod_self_int (a b : ℤ) : (a + b) % b = a % b := by
  have h := Int.add_mul_emod_self_left (a := a) (b := b) (c := 1)
  rw [mul_one] at h
  exact h

/-- The spec-side contribution coincides definitionally with the inner
surflet of the source, dimension 2. -/
theorem specContribution2_eq : specContribution2 = surflet2 := rfl

/-- The spec-side contribution coincides definitionally with the inner
surflet of the source, dimension 3. -/
theorem specContribution3_eq : specContribution3 = surflet3 := rfl

/-- The spec-side contribution coincides definitionally with the inner
surflet of the source, dimension 4. -/
theorem specContribution4_eq : specContribution4 = surflet4 := rfl

/-- The 2-dimensional kernel is the normalized corner sum of the spec. -/
theorem perlin_get2_eq_corner_sum (m : Perlin) (p : Point2) :
    m.get2 p = m.specGet2 p := by
  by_cases h : m.enable_period <;>
    simp [Perlin.get2, Perlin.specGet2, h, specContribution2_eq,
      map2, sub2, add2, mod2, one2, ratToInt, pick, Int.emod_add_emod] <;>
    exact Or.inl (by ring)

/-- The 3-dimensional kernel is the normalized corner sum of the spec. -/
theorem perlin_get3_eq_corner_sum (m : Perlin) (p : Point3) :
    m.get3 p = m.specGet3 p := by
  by_cases h : m.enable_period <;>
    simp [Perlin.get3, Perlin.specGet3, h, specContribution3_eq,
      map3, sub3, add3, mod3, one3, ratToInt, pick, Int.emod_add_emod] <;>
    exact Or.inl (by ring)

/-- The 4-dimensional kernel is the normalized corner sum of the spec. -/
theorem perlin_get4_eq_corner_sum (m : Perlin) (p : Point4) :
    m.get4 p = m.specGet4 p := by
  by_cases h : m.enable_period <;>
    simp [Perlin.get4, Perlin.specGet4, h, specContribution4_eq,
      map4, sub4, add4, mod4, one4, ratToInt, pick, Int.emod_add_emod] <;>
    exact Or.inl (by ring)

/-- C2: for every Perlin instance and every 2-, 3- or 4-dimensional point,
`get` equals the sum over all hypercube corners of the surflet
contribution — the fourth power of the attenuation times the dot product of
distance and hashed gradient when the attenuation is positive, and zero
otherwise — multiplied by the dimension-dependent normalization constant
3.1604938271604937 (2D), 3.8898553255531074 (3D), 4.424369240215691 (4D),
the sum being the spec-side `specGet` definitions stated from the words of
the spec. -/
theorem perlin_get_eq_corner_sum (m : Perlin) :
    (∀ p : Point2, m.get2 p = m.specGet2 p) ∧
    (∀ p : Point3, m.get3 p = m.specGet3 p) ∧
    (∀ p : Point4, m.get4 p = m.specGet4 p) :=
  ⟨perlin_get2_eq_corner_sum m, perlin_get3_eq_corner_sum m,
    perlin_get4_eq_corner_sum m⟩

/-- Periodic shift invariance along axis 0 of the 2-dimensional kernel. -/
theorem perlin_get2_period_x (m : Perlin) (h : m.enable_period = true)
    (p : Point2) : m.get2 (p.1 + (m.period : ℚ), p.2) = m.get2 p := by
  simp [Perlin.get2, h, map2, sub2, add2, mod2, one2, ratToInt,
    Int.floor_add_nat, Int.fract_add_nat, add_emod_self_int]

/-- Periodic shift invariance along axis 1 of the 2-dimensional kernel. -/
theorem perlin_get2_period_y (m : Perlin) (h : m.enable_period = true)
    (p : Point2) : m.get2 (p.1, p.2 + (m.period : ℚ)) = m.get2 p := by
  simp [Perlin.get2, h, map2, sub2, add2, mod2, one2, ratToInt,
    Int.floor_add_nat, Int.fract_add_nat, add_emod_self_int]

/-- Periodic shift invariance along axis 0 of the 3-dimensional kernel. -/
theorem perlin_get3_period_x (m : Perlin) (h : m.enable_period = true)
    (p : Point3) : m.get3 (p.1 + (m.period : ℚ), p.2.1, p.2.2) = m.get3 p := by
  simp [Perlin.get3, h, map3, sub3, add3, mod3, one3, ratToInt,
    Int.floor_add_nat, Int.fract_add_nat, add_emod_self_int]

/-- Periodic shift invariance along axis 1 of the 3-dimensional kernel. -/
theorem perlin_get3_period_y (m : Perlin) (h : m.enable_period = true)
    (p : Point3) : m.get3 (p.1, p.2.1 + (m.period : ℚ), p.2.2) = m.get3 p := by
  simp [Perlin.get3, h, map3, sub3, add3, mod3, one3, ratToInt,
    Int.floor_add_nat, Int.fract_add_nat, add_emod_self_int]

/-- Periodic shift invariance along axis 2 of the 3-dimensional kernel. -/
theorem perlin_get3_period_z (m : Perlin) (h : m.enable_period = true)
    (p : Point3) : m.get3 (p.1, p.2.1, p.2.2 + (m.period : ℚ)) = m.get3 p := by
  simp [Perlin.get3, h, map3, sub3, add3, mod3, one3, ratToInt,
    Int.floor_add_nat, Int.fract_add_nat, add_emod_self_int]

/-- Periodic shift invariance along axis 0 of the 4-dimensional kernel. -/
theorem perlin_get4_period_x (m : Perlin) (h : m.enable_period = true)
    (p : Point4) :
    m.get4 (p.1 + (m.period : ℚ), p.2.1, p.2.2.1, p.2.2.2) = m.get4 p := by
  simp [Perlin.get4, h, map4, sub4, add4, mod4, one4, ratToInt,
    Int.floor_add_nat, Int.fract_add_nat, add_emod_self_int]

/-- Periodic shift invariance along axis 1 of the 4-dimensional kernel. -/
theorem perlin_get4_period_y (m : Perlin) (h : m.enable_period = true)
    (p : Point4) :
    m.get4 (p.1, p.2.1 + (m.period : ℚ), p.2.2.1, p.2.2.2) = m.get4 p := by
  simp [Perlin.get4, h, map4, sub4, add4, mod4, one4, ratToInt,
    Int.floor_add_nat, Int.fract_add_nat, add_emod_self_int]

/-- Periodic shift invariance along axis 2 of the 4-dimensional kernel. -/
theorem perlin_get4_period_z (m : Perlin) (h : m.enable_period = true)
    (p : Point4) :
    m.get4 (p.1, p.2.1, p.2.2.1 + (m.period : ℚ), p.2.2.2) = m.get4 p := by
  simp [Perlin.get4, h, map4, sub4, add4, mod4, one4, ratToInt,
    Int.floor_add_nat, Int.fract_add_nat, add_emod_self_int]

/-- Periodic shift invariance along axis 3 of the 4-dimensional kernel. -/
theorem perlin_get4_period_w (m : Perlin) (h : m.enable_period = true)
    (p : Point4) :
    m.get4 (p.1, p.2.1, p.2.2.1, p.2.2.2 + (m.period : ℚ)) = m.get4 p := by
  simp [Perlin.get4, h, map4, sub4, add4, mod4, one4, ratToInt,
    Int.floor_add_nat, Int.fract_add_nat, add_emod_self_int]

/-- C3: for every Perlin instance with periodic wrapping enabled (the state
produced by `set_period(k)`, which stores `k` in the `period` field), every
axis and every point — including points with negative coordinates — the
evaluation at the point shifted by the period along that axis equals the
evaluation at the point, exactly, in all three dimensionalities. -/
theorem perlin_periodic_tiling (m : Perlin) (h : m.enable_period = true) :
    (∀ p : Point2,
      m.get2 (p.1 + (m.period : ℚ), p.2) = m.get2 p ∧
      m.get2 (p.1, p.2 + (m.period : ℚ)) = m.get2 p) ∧
    (∀ p : Point3,
      m.get3 (p.1 + (m.period : ℚ), p.2.1, p.2.2) = m.get3 p ∧
      m.get3 (p.1, p.2.1 + (m.period : ℚ), p.2.2) = m.get3 p ∧
      m.get3 (p.1, p.2.1, p.2.2 + (m.period : ℚ)) = m.get3 p) ∧
    (∀ p : Point4,
      m.get4 (p.1 + (m.period : ℚ), p.2.1, p.2.2.1, p.2.2.2) = m.get4 p ∧
      m.get4 (p.1, p.2.1 + (m.period : ℚ), p.2.2.1, p.2.2.2) = m.get4 p ∧
      m.get4 (p.1, p.2.1, p.2.2.1 + (m.period : ℚ), p.2.2.2) = m.get4 p ∧
      m.get4 (p.1, p.2.1, p.2.2.1, p.2.2.2 + (m.period : ℚ)) = m.get4 p) :=
  ⟨fun p => ⟨perlin_get2_period_x m h p, perlin_get2_period_y m h p⟩,
   fun p => ⟨perlin_get3_period_x m h p, perlin_get3_period_y m h p,
     perlin_get3_period_z m h p⟩,
   fun p => ⟨perlin_get4_period_x m h p, perlin_get4_period_y m h p,
     perlin_get4_period_z m h p, perlin_get4_period_w m h p⟩⟩

/-- Witness for C3: a concrete periodic instance with period 3, evaluated at
a point with a negative coordinate, instantiating the tiling theorem along
axis 0 in 2 dimensions. -/
theorem perlin_periodic_tiling_witness :
    (Perlin.new.set_period 3).enable_period = true ∧
    (Perlin.new.set_period 3).get2
        ((-5 : ℚ) / 2 + (((Perlin.new.set_period 3).period : ℕ) : ℚ), 7) =
      (Perlin.new.set_period 3).get2 (-5 / 2, 7) :=
  ⟨rfl, ((perlin_periodic_tiling (Perlin.new.set_period 3) rfl).1 (-5 / 2, 7)).1⟩

/-- C5: on any instance whose stored octave count lies in
`[1, RIDGED_MAX_OCTAVES]`, `set_octaves n` yields the octave count
`min (max n 1) RIDGED_MAX_OCTAVES`, and requesting the current count returns
the receiver unchanged (hence unchanged output everywhere, with no source
vector rebuild). -/
theorem ridged_set_octaves_clamp (m : RidgedMulti) (h1 : 1 ≤ m.octaves)
    (h2 : m.octaves ≤ RIDGED_MAX_OCTAVES) (n : ℕ) :
    (m.set_octaves n).octaves = min (max n 1) RIDGED_MAX_OCTAVES ∧
    (n = m.octaves → m.set_octaves n = m) := by
  refine ⟨?_, fun hn => by simp [RidgedMulti.set_octaves, hn]⟩
  unfold RidgedMulti.set_octaves RIDGED_MAX_OCTAVES at *
  split_ifs with ha hb hc hd <;> simp_all <;> omega

/-- Witness for C5: the default instance holds 6 octaves; requesting 0
clamps to 1. -/
theorem ridged_set_octaves_clamp_witness :
    1 ≤ RidgedMulti.new.octaves ∧ RidgedMulti.new.octaves ≤ RIDGED_MAX_OCTAVES ∧
    ((RidgedMulti.new.set_octaves 0).octaves = min (max 0 1) RIDGED_MAX_OCTAVES ∧
      (0 = RidgedMulti.new.octaves → RidgedMulti.new.set_octaves 0 = RidgedMulti.new)) :=
  ⟨by decide, by decide, ridged_set_octaves_clamp RidgedMulti.new (by decide) (by decide) 0⟩

/-- Length of the non-periodic source vector. -/
theorem build_sources_length (seed octaves : ℕ) :
    (build_sources seed octaves).length = octaves := by
  simp [build_sources]

/-- Entry `i` of the non-periodic source vector is the kernel seeded with
`seed + i`. -/
theorem build_sources_getD (seed octaves i : ℕ) (h : i < octaves) :
    (build_sources seed octaves).getD i Perlin.new =
      Perlin.new.set_seed (seed + i) := by
  simp [build_sources, List.getD_eq_getElem?_getD, List.getElem?_map,
    List.getElem?_range, h]

/-- Length of the periodic source vector recursion. -/
theorem build_sources_periodic_aux_length (seed : ℕ) (l : ℚ) :
    ∀ (n x p : ℕ), (build_sources_periodic_aux seed l n x p).length = n := by
  intro n
  induction n with
  | zero => intro x p; rfl
  | succ n ih => intro x p; simp [build_sources_periodic_aux, ih]

/-- Unrolling the period iteration from the front. -/
theorem periodIter_shift (p : ℕ) (l : ℚ) :
    ∀ i, periodIter p l (i + 1) = periodIter (ratToNat ((p : ℚ) * l)) l i := by
  intro i
  induction i with
  | zero => rfl
  | succ i ih =>
    show ratToNat ((periodIter p l (i + 1) : ℚ) * l) = _
    rw [ih]
    rfl

/-- Entry `i` of the periodic source vector recursion: the kernel seeded with
`seed + (x + i)` and made periodic with the `i`-fold iterated period. -/
theorem build_sources_periodic_aux_getD (seed : ℕ) (l : ℚ) :
    ∀ (n x p i : ℕ), i < n →
      (build_sources_periodic_aux seed l n x p).getD i Perlin.new =
        (Perlin.new.set_seed (seed + (x + i))).set_period (periodIter p l i) := by
  intro n
  induction n with
  | zero => intro x p i h; omega
  | succ n ih =>
    intro x p i h
    match i with
    | 0 => rfl
    | i + 1 =>
      have hi : i < n := by omega
      show (build_sources_periodic_aux seed l n (x + 1)
          (ratToNat ((p : ℚ) * l))).getD i Perlin.new = _
      rw [ih (x + 1) (ratToNat ((p : ℚ) * l)) i hi, periodIter_shift]
      congr 2
      omega

/-- Instances whose source vector is a fresh non-periodic rebuild satisfy the
source-vector invariant. -/
theorem sourcesInv_of_plain (m : RidgedMulti) (hp : m.enable_period = false)
    (hs : m.sources = build_sources m.seed m.octaves) : m.sourcesInv := by
  unfold RidgedMulti.sourcesInv
  rw [hs, build_sources_length]
  refine ⟨rfl, fun i hi => ?_⟩
  rw [build_sources_getD m.seed m.octaves i
    (by simpa [build_sources_length] using hi)]
  refine ⟨by simp [Perlin.set_seed], fun hcontra => ?_⟩
  rw [hp] at hcontra
  cases hcontra

/-- Instances whose source vector is a fresh periodic rebuild satisfy the
source-vector invariant. -/
theorem sourcesInv_of_periodic (m : RidgedMulti)
    (hs : m.sources = build_sources_periodic m.seed m.octaves m.period m.lacunarity) :
    m.sourcesInv := by
  unfold RidgedMulti.sourcesInv build_sources_periodic at *
  rw [hs, build_sources_periodic_aux_length]
  refine ⟨rfl, fun i hi => ?_⟩
  rw [build_sources_periodic_aux_getD m.seed m.lacunarity m.octaves 0 m.period i
    (by simpa [build_sources_periodic_aux_length] using hi)]
  refine ⟨by simp [Perlin.set_seed, Perlin.set_period], fun _ => ?_⟩
  exact ⟨by simp [Perlin.set_seed, Perlin.set_period],
    by simp [Perlin.set_seed, Perlin.set_period]⟩

/-- C6 (amended): every instance reachable through `new()` and builder calls
keeps its source vector exactly `octaves` long with entry `i` seeded by
`seed + i`, and, when periodicity is enabled, entry `i` periodic with the
iterated period `periodIter period lacunarity i` — the `i`-fold iterate of
multiplication by the lacunarity with truncation back to `usize` after each
step (which equals `period * lacunarity^i` only when every intermediate
product is integral, e.g. for the default lacunarity 2). -/
theorem ridged_sources_invariant (m : RidgedMulti) (h : m.Reachable) :
    m.sourcesInv := by
  induction h with
  | new => exact sourcesInv_of_plain _ rfl rfl
  | set_seed m s hr ih =>
    by_cases hc : m.seed = s
    · simpa [RidgedMulti.set_seed, hc] using ih
    · by_cases hep : m.enable_period
      · apply sourcesInv_of_periodic
        simp [RidgedMulti.set_seed, hc, hep]
      · apply sourcesInv_of_plain <;> simp [RidgedMulti.set_seed, hc, hep]
  | set_octaves m n hr ih =>
    by_cases hc : m.octaves = n
    · simpa [RidgedMulti.set_octaves, hc] using ih
    · by_cases hep : m.enable_period
      · apply sourcesInv_of_periodic
        simp [RidgedMulti.set_octaves, hc, hep]
      · apply sourcesInv_of_plain <;> simp [RidgedMulti.set_octaves, hc, hep]
  | set_frequency m f hr ih =>
    simp only [RidgedMulti.sourcesInv, RidgedMulti.set_frequency] at ih ⊢
    exact ih
  | set_lacunarity m l hr ih =>
    by_cases hep : m.enable_period
    · apply sourcesInv_of_periodic
      simp [RidgedMulti.set_lacunarity, hep]
    · have hep2 : m.enable_period = false := by simpa using hep
      simp only [RidgedMulti.sourcesInv, RidgedMulti.set_lacunarity, hep2,
        Bool.false_eq_true, if_false, Bool.not_false, if_true] at ih ⊢
      simp only [hep2, Bool.false_eq_true, false_implies, and_true] at ih ⊢
      exact ih
  | set_period m k hr ih =>
    apply sourcesInv_of_periodic
    simp [RidgedMulti.set_period]
  | set_persistence m q hr ih =>
    simp only [RidgedMulti.sourcesInv, RidgedMulti.set_persistence] at ih ⊢
    exact ih
  | set_gain m g hr ih =>
    simp only [RidgedMulti.sourcesInv, RidgedMulti.set_gain] at ih ⊢
    exact ih

/-- Witness for C6 (amended): the default instance is reachable and satisfies
the invariant. -/
theorem ridged_sources_invariant_witness :
    RidgedMulti.Reachable RidgedMulti.new ∧ RidgedMulti.new.sourcesInv :=
  ⟨RidgedMulti.Reachable.new,
    ridged_sources_invariant RidgedMulti.new RidgedMulti.Reachable.new⟩

/-- Computation rule for the float-to-usize cast on a known floor value. -/
theorem ratToNat_eq_of_floor (q : ℚ) (n : ℕ) (h : ⌊q⌋ = (n : ℤ)) :
    ratToNat q = n := by
  simp [ratToNat, h]

/-- Counterexample to C6 as stated: the reachable instance with lacunarity
3/2 and period 9 gives octave 2 a source period of 19, while the period
scaled by the squared lacunarity is 81/4, whose integer cast is 20 — the
iterated truncation does not equal scaling by `lacunarity^i`. -/
theorem ridged_sources_scaling_counterexample :
    RidgedMulti.Reachable ((RidgedMulti.new.set_lacunarity (3 / 2)).set_period 9) ∧
    ((((RidgedMulti.new.set_lacunarity (3 / 2)).set_period 9).sources.getD 2
        Perlin.new).period = 19 ∧
      ratToNat ((((RidgedMulti.new.set_lacunarity (3 / 2)).set_period 9).period : ℚ) *
        (((RidgedMulti.new.set_lacunarity (3 / 2)).set_period 9).lacunarity) ^ 2) = 20) := by
  have s1 : periodIter 9 (3 / 2) 1 = 13 := by
    apply ratToNat_eq_of_floor
    norm_num [periodIter]
  have s2 : periodIter 9 (3 / 2) 2 = 19 := by
    show ratToNat ((periodIter 9 (3 / 2) 1 : ℚ) * (3 / 2)) = 19
    rw [s1]
    apply ratToNat_eq_of_floor
    norm_num
  refine ⟨RidgedMulti.Reachable.set_period _ 9
    (RidgedMulti.Reachable.set_lacunarity _ (3 / 2) RidgedMulti.Reachable.new), ?_, ?_⟩
  · have hs : ((RidgedMulti.new.set_lacunarity (3 / 2)).set_period 9).sources
        = build_sources_periodic_aux 0 (3 / 2) 6 0 9 := rfl
    rw [hs, build_sources_periodic_aux_getD 0 (3 / 2) 6 0 9 2 (by omega)]
    simpa [Perlin.set_period, Perlin.set_seed] using s2
  · apply ratToNat_eq_of_floor
    norm_num [RidgedMulti.set_period, RidgedMulti.set_lacunarity, RidgedMulti.new]

/-- C7: the default-configured Perlin kernel (seed 0) evaluated at the
2-dimensional origin returns exactly 0: the corner at the point has zero
distance, and the three remaining corners have attenuation at most 0. -/
theorem perlin_new_origin_zero : Perlin.new.get2 (0, 0) = 0 := by
  norm_num [Perlin.get2, surflet2, map2, sub2, add2, mod2, one2, dot2, pow4,
    ratToInt, Perlin.new]

/-- C8: evaluation is a pure function of the configuration and the point —
repeated calls on the same instance at the same point return identical
results, for the Perlin kernel and the RidgedMulti combinator in every
dimensionality; nothing is mutated, since every `get` is a function of the
immutable instance. -/
theorem evaluate_deterministic :
    (∀ (m : Perlin) (p : Point2), m.get2 p = m.get2 p) ∧
    (∀ (m : Perlin) (p : Point3), m.get3 p = m.get3 p) ∧
    (∀ (m : Perlin) (p : Point4), m.get4 p = m.get4 p) ∧
    (∀ (m : RidgedMulti) (p : Point2), m.get2 p = m.get2 p) ∧
    (∀ (m : RidgedMulti) (p : Point3), m.get3 p = m.get3 p) ∧
    (∀ (m : RidgedMulti) (p : Point4), m.get4 p = m.get4 p) :=
  ⟨fun _ _ => rfl, fun _ _ => rfl, fun _ _ => rfl, fun _ _ => rfl,
    fun _ _ => rfl, fun _ _ => rfl⟩

/-- C9: the Abs modifier returns exactly the absolute value of its source
output at every point, over any point type, and holds no state beyond the
wrapped source (every Abs value is just its source field). -/
theorem abs_modifier_correct :
    (∀ (P : Type) (source : P → ℚ) (p : P), (Abs.new source).get p = |source p|) ∧
    (∀ (P : Type) (a : Abs P), a = Abs.new a.source) :=
  ⟨fun _ _ _ => rfl, fun _ _ => rfl⟩

/-- The RidgedMulti builders other than `set_period` preserve the
periodicity flag: `set_seed`. -/
theorem ridged_set_seed_flag (m : RidgedMulti) (s : ℕ) :
    (m.set_seed s).enable_period = m.enable_period := by
  unfold RidgedMulti.set_seed
  split_ifs <;> rfl

/-- Flag preservation by `set_octaves`. -/
theorem ridged_set_octaves_flag (m : RidgedMulti) (n : ℕ) :
    (m.set_octaves n).enable_period = m.enable_period := by
  unfold RidgedMulti.set_octaves
  split_ifs <;> rfl

/-- Flag preservation by `set_lacunarity`. -/
theorem ridged_set_lacunarity_flag (m : RidgedMulti) (l : ℚ) :
    (m.set_lacunarity l).enable_period = m.enable_period := by
  unfold RidgedMulti.set_lacunarity
  split_ifs <;> rfl

/-- C10: periodic wrapping is disabled on freshly constructed Perlin and
RidgedMulti instances; `set_period` enables it on any instance; and no
builder call ever disables it — every instance derived by a chain of builder
calls from a periodic instance is still periodic. -/
theorem periodic_flag_monotone :
    Perlin.new.enable_period = false ∧
    RidgedMulti.new.enable_period = false ∧
    (∀ (m : Perlin) (k : ℕ), (m.set_period k).enable_period = true) ∧
    (∀ (m : RidgedMulti) (k : ℕ), (m.set_period k).enable_period = true) ∧
    (∀ (m k : Perlin), Perlin.DerivedFrom m k → m.enable_period = true →
      k.enable_period = true) ∧
    (∀ (m k : RidgedMulti), RidgedMulti.DerivedFrom m k → m.enable_period = true →
      k.enable_period = true) := by
  refine ⟨rfl, rfl, fun m k => rfl, fun m k => rfl, ?_, ?_⟩
  · intro m k hd hm
    induction hd with
    | refl => exact hm
    | set_seed k s hd ih => simpa [Perlin.set_seed] using ih
    | set_period k n hd ih => rfl
  · intro m k hd hm
    induction hd with
    | refl => exact hm
    | set_seed k s hd ih => rw [ridged_set_seed_flag]; exact ih
    | set_octaves k n hd ih => rw [ridged_set_octaves_flag]; exact ih
    | set_frequency k f hd ih => exact ih
    | set_lacunarity k l hd ih => rw [ridged_set_lacunarity_flag]; exact ih
    | set_period k n hd ih => rfl
    | set_persistence k q hd ih => exact ih
    | set_gain k g hd ih => exact ih

/-- Witness for C10: a periodic Perlin instance stays periodic through a
subsequent `set_seed`. -/
theorem periodic_flag_monotone_witness :
    Perlin.DerivedFrom (Perlin.new.set_period 5) ((Perlin.new.set_period 5).set_seed 7) ∧
    (Perlin.new.set_period 5).enable_period = true ∧
    ((Perlin.new.set_period 5).set_seed 7).enable_period = true :=
  ⟨Perlin.DerivedFrom.set_seed _ _ 7 (Perlin.DerivedFrom.refl _), rfl,
    periodic_flag_monotone.2.2.2.2.1 (Perlin.new.set_period 5) _
      (Perlin.DerivedFrom.set_seed _ _ 7 (Perlin.DerivedFrom.refl _)) rfl⟩

/-- The f32 cast fixes zero. -/
theorem castF32_zero : castF32 0 = 0 := by
  simp [castF32]

/-- The f32 cast fixes one, which is exactly representable. -/
theorem castF32_one : castF32 1 = 1 := by
  norm_num [castF32, rne, Int.fract, Int.log_one_right, max_def]

/-- The value `1 + 2 ^ (-25)` (here written as the explicit fraction
`33554433 / 33554432`) lies strictly inside the first half-ulp above 1, so
its f32 cast rounds down to exactly 1 — the clamp comparison cannot see the
excess. -/
theorem castF32_c1 : castF32 ((33554433 : ℚ) / 33554432) = 1 := by
  have hq : ((33554433 : ℚ) / 33554432) ≠ 0 := by positivity
  have habs : |((33554433 : ℚ) / 33554432)| = (33554433 : ℚ) / 33554432 :=
    abs_of_pos (by positivity)
  have hlog : Int.log 2 ((33554433 : ℚ) / 33554432) = 0 := by
    rw [Int.log, if_pos (by norm_num)]
    have hfl : ⌊((33554433 : ℚ) / 33554432)⌋₊ = 1 := by
      rw [Nat.floor_eq_iff] <;> norm_num
    rw [hfl, Nat.log_one_right]
    rfl
  rw [castF32, if_neg hq, habs, hlog]
  norm_num [max_def, rne, Int.fract]

/-- Counterexample to C1 as stated: on the reachable instance with 2 octaves
and gain `1 + 2 ^ (-25)`, evaluated at the origin, the code differs from the
pseudocode with the exact `clamp(signal * gain, 0, 1)`: the first octave
weight `1 + 2 ^ (-25)` casts to `1.0f32`, so the code leaves it unclamped
while the pseudocode clamps it to 1, and the difference reaches the output
through the second octave. -/
theorem ridged_clamp_deviates_from_spec :
    ((RidgedMulti.new.set_octaves 2).set_gain ((33554433 : ℚ) / 33554432)).get2 (0, 0) ≠
    ((RidgedMulti.new.set_octaves 2).set_gain ((33554433 : ℚ) / 33554432)).specGet2 (0, 0) := by
  norm_num [RidgedMulti.get2, RidgedMulti.specGet2, RidgedMulti.set_octaves,
    RidgedMulti.set_gain, RidgedMulti.new, build_sources, ridgedLoop,
    ridgedSpecLoop, clampQ, min_def, max_def, mul2, Perlin.get2,
    Perlin.set_seed, Perlin.new, surflet2, map2, sub2, add2, mod2, one2,
    ratToInt, dot2, pow4, RIDGED_MAX_OCTAVES, DEFAULT_RIDGED_OCTAVE_COUNT,
    DEFAULT_RIDGED_SEED, DEFAULT_RIDGED_LACUNARITY, DEFAULT_RIDGED_FREQUENCY,
    DEFAULT_RIDGED_PERSISTENCE, List.range, List.range.loop, castF32_c1]

/-- The octave loop of the source equals the amended pseudocode loop — the
one whose clamp compares the f32 cast of the weight — for every state. -/
theorem ridgedLoop_eq_specLoopF32 {P : Type} (eval : Perlin → P → ℚ)
    (mulP : P → ℚ → P) (sources : List Perlin) (g q l : ℚ) :
    ∀ (n x : ℕ) (point : P) (result weight : ℚ),
      ridgedLoop eval mulP sources g q l n x point result weight =
      ridgedSpecLoopF32 eval mulP sources g q l n x point result weight := by
  intro n
  induction n with
  | zero => intro x point result weight; rfl
  | succ n ih =>
    intro x point result weight
    simp only [ridgedLoop, ridgedSpecLoopF32, clampF32]
    rw [ih]
    have hsig : (1 - |eval (sources.getD x Perlin.new) point|) *
        (1 - |eval (sources.getD x Perlin.new) point|) * weight =
        (1 - |eval (sources.getD x Perlin.new) point|) ^ 2 * weight := by ring
    rw [hsig]

/-- C1 (amended): for every RidgedMulti instance and every 2-, 3- or
4-dimensional point, `get` equals the ridged-multifractal pseudocode of the
spec step for step, with the single amendment the source forces: the
`clamp(signal * gain, 0, 1)` step performs its two comparisons on the f32
cast of the weight (leaving weights whose cast rounds into `[0, 1]`
untouched); every other step — the ridging `(1 - |signal|)^2 * weight`, the
`persistence^i` scaling, the accumulation, the lacunarity scaling and the
final `result * (1/3) - 1` — is unchanged. -/
theorem ridged_get_matches_castF32_spec (m : RidgedMulti) :
    (∀ p : Point2, m.get2 p = m.specGet2F32 p) ∧
    (∀ p : Point3, m.get3 p = m.specGet3F32 p) ∧
    (∀ p : Point4, m.get4 p = m.specGet4F32 p) := by
  refine ⟨fun p => ?_, fun p => ?_, fun p => ?_⟩ <;>
    simp only [RidgedMulti.get2, RidgedMulti.specGet2F32, RidgedMulti.get3,
      RidgedMulti.specGet3F32, RidgedMulti.get4, RidgedMulti.specGet4F32,
      ridgedLoop_eq_specLoopF32] <;> ring

/-- Counterexample to C4 as stated: on the reachable single-octave instance
with gain `1 + 2 ^ (-25)`, the weight after the clamping step is
`1 + 2 ^ (-25) > 1` — its f32 cast rounds to exactly 1, so neither clamp
comparison fires and the weight keeps its excess over 1. -/
theorem ridged_weight_exceeds_one :
    ((33554433 : ℚ) / 33554432) ∈
      ((RidgedMulti.new.set_octaves 1).set_gain
        ((33554433 : ℚ) / 33554432)).weightTrace2 (0, 0) ∧
    1 < ((33554433 : ℚ) / 33554432) := by
  constructor
  · norm_num [RidgedMulti.weightTrace2, RidgedMulti.set_octaves,
      RidgedMulti.set_gain, RidgedMulti.new, build_sources, ridgedWeightTrace,
      mul2, Perlin.get2, Perlin.set_seed, Perlin.new, surflet2, map2, sub2,
      add2, mod2, one2, ratToInt, dot2, pow4, RIDGED_MAX_OCTAVES,
      DEFAULT_RIDGED_OCTAVE_COUNT, DEFAULT_RIDGED_SEED,
      DEFAULT_RIDGED_LACUNARITY, DEFAULT_RIDGED_FREQUENCY,
      List.range, List.range.loop, castF32_c1]
  · norm_num

/-- Every weight recorded by the ghost trace has an f32 cast in `[0, 1]`:
the clamped branches set it to the exactly representable 1 or 0, and the
untouched branch is exactly the case where both cast comparisons failed. -/
theorem ridgedWeightTrace_castF32_bounds {P : Type} (eval : Perlin → P → ℚ)
    (mulP : P → ℚ → P) (sources : List Perlin) (g l : ℚ) :
    ∀ (n x : ℕ) (point : P) (weight w : ℚ),
      w ∈ ridgedWeightTrace eval mulP sources g l n x point weight →
      0 ≤ castF32 w ∧ castF32 w ≤ 1 := by
  intro n
  induction n with
  | zero => intro x point weight w h; simp [ridgedWeightTrace] at h
  | succ n ih =>
    intro x point weight w h
    simp only [ridgedWeightTrace, List.mem_cons] at h
    rcases h with h | h
    · subst h
      split_ifs with h1 h2
      · rw [castF32_one]; norm_num
      · rw [castF32_zero]; norm_num
      · exact ⟨le_of_not_lt h2, le_of_not_lt h1⟩
    · exact ih _ _ _ _ h

/-- C4 (amended): during every single `RidgedMulti::get` call, in every
octave iteration, the weight immediately after the clamping step satisfies
the bound the clamp actually enforces: its f32 cast lies in `[0, 1]` — i.e.
`0 ≤ weight ≤ 1` holds up to one f32 rounding step at each bound (the weight
may exceed 1 by at most half the f32 ulp at 1, or sit less than half the
smallest f32 subnormal below 0), in all three dimensionalities. -/
theorem ridged_weight_castF32_clamped (m : RidgedMulti) :
    (∀ p : Point2, ∀ w ∈ m.weightTrace2 p, 0 ≤ castF32 w ∧ castF32 w ≤ 1) ∧
    (∀ p : Point3, ∀ w ∈ m.weightTrace3 p, 0 ≤ castF32 w ∧ castF32 w ≤ 1) ∧
    (∀ p : Point4, ∀ w ∈ m.weightTrace4 p, 0 ≤ castF32 w ∧ castF32 w ≤ 1) :=
  ⟨fun _ w h => ridgedWeightTrace_castF32_bounds _ _ _ _ _ _ _ _ _ w h,
   fun _ w h => ridgedWeightTrace_castF32_bounds _ _ _ _ _ _ _ _ _ w h,
   fun _ w h => ridgedWeightTrace_castF32_bounds _ _ _ _ _ _ _ _ _ w h⟩

/-- Witness for C4 (amended): the first weight of the single-octave instance
with gain `1 + 2 ^ (-25)` is in the trace, and the theorem bounds its f32
cast into `[0, 1]`. -/
theorem ridged_weight_castF32_clamped_witness :
    ((33554433 : ℚ) / 33554432) ∈
      ((RidgedMulti.new.set_octaves 1).set_gain
        ((33554433 : ℚ) / 33554432)).weightTrace2 (0, 0) ∧
    (0 ≤ castF32 ((33554433 : ℚ) / 33554432) ∧
      castF32 ((33554433 : ℚ) / 33554432) ≤ 1) := by
  have hmem : ((33554433 : ℚ) / 33554432) ∈
      ((RidgedMulti.new.set_octaves 1).set_gain
        ((33554433 : ℚ) / 33554432)).weightTrace2 (0, 0) := by
    norm_num [RidgedMulti.weightTrace2, RidgedMulti.set_octaves,
      RidgedMulti.set_gain, RidgedMulti.new, build_sources, ridgedWeightTrace,
      mul2, Perlin.get2, Perlin.set_seed, Perlin.new, surflet2, map2, sub2,
      add2, mod2, one2, ratToInt, dot2, pow4, RIDGED_MAX_OCTAVES,
      DEFAULT_RIDGED_OCTAVE_COUNT, DEFAULT_RIDGED_SEED,
      DEFAULT_RIDGED_LACUNARITY, DEFAULT_RIDGED_FREQUENCY,
      List.range, List.range.loop, castF32_c1]
  exact ⟨hmem,
    (ridged_weight_castF32_clamped
      ((RidgedMulti.new.set_octaves 1).set_gain ((33554433 : ℚ) / 33554432))).1
      (0, 0) ((33554433 : ℚ) / 33554432) hmem⟩
